import Mathlib

/-!
# TokenVault

A shallow embedding of the TokenVault storage layer (`internal/database/db.go`),
request layer (`internal/api/handlers.go`) and the `setup-postman` script
generator (`setup.go`), followed by the properties established about them.

The JSON decoder that gin runs on the body of `POST /store` is represented by
the scanner of `encoding/json`, run character by character over the body.

The SQLite engine behind `database/sql` is represented by the part of its
behaviour the three statements of `db.go` exercise: one table named `tokens`,
kept as the list of its rows in rowid order, together with the schema the
table was created with.
-/

namespace TokenVault

/-! ## Storage layer: schema and rows -/

/-- Column constraints that SQLite recognises in a column definition. -/
inductive ColumnConstraint
  | primaryKey
  | defaultCurrentTimestamp
deriving DecidableEq

/-- A parsed column definition: the column name, the words of its declared type
and the constraints that follow the type. SQLite reads every identifier after
the column name as part of the type name until it meets a constraint keyword. -/
structure ColumnDef where
  name : String
  typeName : List String
  constraints : List ColumnConstraint
deriving DecidableEq

/-- The column list of `createTableQuery` in `InitDB`:
`project_name TEXT PRIMARY_KEY, token_value TEXT,
updated_at DATETIME DEFAULT CURRENT_TIMESTAMP`.
`PRIMARY_KEY` (with an underscore) is a single identifier, not the two keywords
`PRIMARY KEY`, so it is the second word of the declared type of `project_name`
and the column carries no constraint. -/
def createTableQuery : List ColumnDef :=
  [ { name := "project_name", typeName := ["TEXT", "PRIMARY_KEY"], constraints := [] },
    { name := "token_value", typeName := ["TEXT"], constraints := [] },
    { name := "updated_at", typeName := ["DATETIME"],
      constraints := [ColumnConstraint.defaultCurrentTimestamp] } ]

/-- One row of the `tokens` table. The two text columns hold Go strings, the
only values `SaveToken` binds; `updated_at` is the value of `CURRENT_TIMESTAMP`
when the row was written. -/
structure Row where
  project_name : String
  token_value : String
  updated_at : Nat
deriving DecidableEq

/-- The `tokens` table: the schema it was created with and its rows in rowid
order (the order of insertion, since rows are never deleted except by a
replacing insert, which appends the new row with a fresh largest rowid). -/
structure Table where
  schema : List ColumnDef
  rows : List Row
deriving DecidableEq

/-- Whether the schema puts a `PRIMARY KEY` constraint on `project_name`. -/
def Table.keyed (t : Table) : Bool :=
  t.schema.any fun c =>
    c.name == "project_name" && c.constraints.contains ColumnConstraint.primaryKey

/-- Errors returned through `database/sql`. -/
inductive DbError
  | ErrNoRows
  | noSuchTable
  | driver (msg : String)
deriving DecidableEq

/-- The database behind the global handle `DB`: the `tokens` table when it
exists, and the failure the driver currently reports for every statement
(disk I/O error, locked or corrupt file), if any. -/
structure DB where
  tokens : Option Table
  fault : Option String
deriving DecidableEq

/-- Outcomes of the operating-system and driver-registry calls of `InitDB`:
`os.UserHomeDir()`, `os.MkdirAll(dbFolder, 0755)` and `sql.Open("sqlite", dbPath)`
(for the latter two the error, if any). -/
structure OS where
  userHomeDir : Except String String
  mkdirAll : Option String
  sqlOpen : Option String

/-! ## Storage layer: the three SQL statements -/

/-- Execution of `CREATE TABLE IF NOT EXISTS tokens (...)`: a no-op when the
table exists, otherwise the table is created empty with the declared schema. -/
def execCreateTable (db : DB) : DB × Option DbError :=
  match db.fault with
  | some m => (db, some (DbError.driver m))
  | none =>
    match db.tokens with
    | some _ => (db, none)
    | none => ({ db with tokens := some { schema := createTableQuery, rows := [] } }, none)

/-- The conflict resolution of `INSERT OR REPLACE`: rows that collide with the
new row on a uniqueness constraint are deleted before the new row is added.
Without a key on `project_name` no row ever collides and the row is appended. -/
def insertOrReplace (t : Table) (r : Row) : Table :=
  if t.keyed then
    { t with rows := t.rows.filter (fun x => x.project_name != r.project_name) ++ [r] }
  else
    { t with rows := t.rows ++ [r] }

/-- Execution of
`INSERT OR REPLACE INTO tokens (project_name, token_value, updated_at)
VALUES (?, ?, CURRENT_TIMESTAMP)`, with `now` the current timestamp. -/
def execInsertOrReplace (db : DB) (now : Nat) (project token : String) :
    DB × Option DbError :=
  match db.fault with
  | some m => (db, some (DbError.driver m))
  | none =>
    match db.tokens with
    | none => (db, some DbError.noSuchTable)
    | some t =>
      ({ db with tokens := some (insertOrReplace t
          { project_name := project, token_value := token, updated_at := now }) }, none)

/-- The result rows of `SELECT token_value from tokens WHERE project_name = ?`:
a scan of the table in rowid order. -/
def querySelect (db : DB) (project : String) : Except DbError (List String) :=
  match db.fault with
  | some m => Except.error (DbError.driver m)
  | none =>
    match db.tokens with
    | none => Except.error DbError.noSuchTable
    | some t =>
      Except.ok ((t.rows.filter (fun x => x.project_name == project)).map Row.token_value)

/-- The call `DB.QueryRow(query, project).Scan(&token)`: the first result row,
`sql.ErrNoRows` when there is none. -/
def queryRowScan (db : DB) (project : String) : Except DbError String :=
  match querySelect db project with
  | Except.error e => Except.error e
  | Except.ok [] => Except.error DbError.ErrNoRows
  | Except.ok (token :: _) => Except.ok token

/-! ## Storage layer: `InitDB`, `SaveToken`, `GetToken` -/

/-- The text of an error, `err.Error()`. -/
def DbError.Error : DbError → String
  | DbError.ErrNoRows => "sql: no rows in result set"
  | DbError.noSuchTable => "SQL logic error: no such table: tokens (1)"
  | DbError.driver msg => msg

/-- The function `InitDB`, applied to the database stored at the fixed per-user path. The
result is that database after the call (the one behind the handle `DB` when the
call returns) and the message of the `log.Fatal` call that ended the process,
`none` when `InitDB` returned. Console output is not represented. -/
def InitDB (os : OS) (file : DB) : DB × Option String :=
  match os.userHomeDir with
  | Except.error e => (file, some ("Could not find user home directory:" ++ e))
  | Except.ok _ =>
    match os.mkdirAll with
    | some e => (file, some ("Could not create .tokenvault directory" ++ e))
    | none =>
      match os.sqlOpen with
      | some e => (file, some ("Could not connect to Database:" ++ e))
      | none =>
        match execCreateTable file with
        | (db, some e) => (db, some ("Failed to create table:" ++ e.Error))
        | (db, none) => (db, none)

/-- The function `SaveToken(project, token)`: the database after the call and the returned
error (`none` for `nil`). -/
def SaveToken (db : DB) (now : Nat) (project token : String) : DB × Option DbError :=
  execInsertOrReplace db now project token

/-- The function `GetToken(project)`: the returned pair of token and error. -/
def GetToken (db : DB) (project : String) : String × Option DbError :=
  match queryRowScan db project with
  | Except.error err => ("", some err)
  | Except.ok token => (token, none)

/-- An operating system on which every call of `InitDB` succeeds. -/
def healthyOS : OS :=
  { userHomeDir := Except.ok "/home/dev", mkdirAll := none, sqlOpen := none }

/-- A database file that does not hold the `tokens` table yet. -/
def emptyFile : DB := { tokens := none, fault := none }

/-- The freshly initialised database: what `InitDB` leaves behind on a file
without the `tokens` table. -/
def freshDB : DB :=
  { tokens := some { schema := createTableQuery, rows := [] }, fault := none }

/-- A call `SaveToken(project, token)` made when the clock shows `now`. -/
structure SaveCall where
  now : Nat
  project : String
  token : String
deriving DecidableEq

/-- The database after a sequence of `SaveToken` calls. -/
def runSaves (db : DB) : List SaveCall → DB
  | [] => db
  | c :: cs => runSaves (SaveToken db c.now c.project c.token).1 cs

/-- The row a `SaveToken` call writes. -/
def SaveCall.toRow (c : SaveCall) : Row :=
  { project_name := c.project, token_value := c.token, updated_at := c.now }

/-- The number of rows the table holds for a project. -/
def rowCount (db : DB) (project : String) : Nat :=
  match db.tokens with
  | none => 0
  | some t => (t.rows.filter (fun x => x.project_name == project)).length

/-! ## Request layer -/

/-- The struct `TokenRequest`, the body expected by `POST /store`. -/
structure TokenRequest where
  Project : String
  Token : String
deriving DecidableEq

/-- What `encoding/json` makes of a request body decoded into a `TokenRequest`:
either the decoder rejects it (syntax error, empty body, a field of the wrong
JSON type), or it yields the string found under each of the two keys, `none`
for a key that is absent or `null` (the Go field then keeps its zero value). -/
inductive JsonBody
  | invalid (err : String)
  | object (project token : Option String)
deriving DecidableEq

/-- The message of the validator for a field that fails `binding:"required"`. -/
def requiredError (field : String) : String :=
  "Key: \x27TokenRequest." ++ field ++ "\x27 Error:Field validation for \x27" ++ field ++
    "\x27 failed on the \x27required\x27 tag"

/-- The `binding:"required"` check of the two fields: a field fails when it
holds the zero value of its type, the empty string. -/
def validateRequired (req : TokenRequest) : List String :=
  (if req.Project == "" then [requiredError "Project"] else []) ++
  (if req.Token == "" then [requiredError "Token"] else [])

/-- The call `c.ShouldBindJSON(&req)`: decoding followed by validation. -/
def ShouldBindJSON (body : JsonBody) : Except String TokenRequest :=
  match body with
  | JsonBody.invalid err => Except.error err
  | JsonBody.object project token =>
    let req : TokenRequest := { Project := project.getD "", Token := token.getD "" }
    match validateRequired req with
    | [] => Except.ok req
    | errs => Except.error ("\n".intercalate errs)

/-- A JSON response written with `c.JSON(status, gin.H ...)`: the status code
and the key/value pairs of the map. -/
structure Response where
  status : Nat
  body : List (String × String)
deriving DecidableEq

/-- The constant `http.StatusOK`. -/
def StatusOK : Nat := 200
/-- The constant `http.StatusBadRequest`. -/
def StatusBadRequest : Nat := 400
/-- The constant `http.StatusNotFound`. -/
def StatusNotFound : Nat := 404
/-- The constant `http.StatusInternalServerError`. -/
def StatusInternalServerError : Nat := 500

/-- The handler `StoreTokenHandler` on a request body: the response and the database after
the handler has run. -/
def StoreTokenHandler (db : DB) (now : Nat) (body : JsonBody) : Response × DB :=
  match ShouldBindJSON body with
  | Except.error err => ({ status := StatusBadRequest, body := [("error", err)] }, db)
  | Except.ok req =>
    match SaveToken db now req.Project req.Token with
    | (db1, some _) =>
      ({ status := StatusInternalServerError, body := [("error", "Failed to save token")] }, db1)
    | (db1, none) =>
      ({ status := StatusOK, body := [("status", "saved"), ("project", req.Project)] }, db1)

/-- The handler `GetTokenHandler` on the path parameter `project`: the response (the
database is only read). -/
def GetTokenHandler (db : DB) (project : String) : Response :=
  match GetToken db project with
  | (_, some _) => { status := StatusNotFound, body := [("error", "token Not Found")] }
  | (token, none) => { status := StatusOK, body := [("token", token)] }

/-! ## Request layer: the JSON decoder behind `ShouldBindJSON` -/

/-- The entries of the parse stack of the `encoding/json` scanner:
`parseObjectKey`, `parseObjectValue`, `parseArrayValue`. -/
inductive ParseState
  | objectKey
  | objectValue
  | arrayValue
deriving DecidableEq

/-- The step functions of the `encoding/json` scanner (`stateBeginValue`,
`stateInString`, `state1`, ...). The four states of a `\u` escape are
`inStringEscU` with the number of hex digits read, and the states of the
literals `true`, `false`, `null` are `inLiteral` with the letters still due. -/
inductive ScanStep
  | beginValue
  | beginValueOrEmpty
  | beginStringOrEmpty
  | beginString
  | inString
  | inStringEsc
  | inStringEscU (seen : Nat)
  | neg
  | num1
  | num0
  | dot
  | dot0
  | exp
  | expSign
  | exp0
  | inLiteral (due : List Char)
  | endValue
deriving DecidableEq

/-- What the decoder finds as the value of a member of the request object:
a string (with its escapes decoded), `null`, or any other JSON value. -/
inductive MemberValue
  | string (s : List Char)
  | null
  | other
deriving DecidableEq

/-- The kind of the first JSON value of the body. -/
inductive TopValue
  | object
  | null
  | other
deriving DecidableEq

/-- The errors of `Decoder.Decode`: a character the scanner rejects, more than
10000 nested containers, the end of the body inside a value (`unexpectedEOF`)
or before any value (`eof`), and a JSON value that cannot be stored in the Go
value it is decoded into (`typeMismatch`, with the name of the struct field,
empty for the struct itself). -/
inductive DecodeError
  | invalidCharacter (c : Char)
  | exceededMaxDepth
  | unexpectedEOF
  | eof
  | typeMismatch (field : String)
deriving DecidableEq

/-- The decoder while it reads the first JSON value of the body: the scanner
(`step`, `parseState`) and what has been decoded so far. `str` is the string
being read with its escapes decoded, `hex` the value of the hex digits of the
current `\u` escape, `high` a UTF-16 high surrogate waiting for its low half,
`key` and `value` the member of the outermost object being read, `members` the
members of the outermost object completed so far and `top` the kind of the
first value. -/
structure Scanner where
  step : ScanStep
  parseState : List ParseState
  str : List Char
  hex : Nat
  high : Option Nat
  key : List Char
  value : MemberValue
  members : List (List Char × MemberValue)
  top : TopValue
deriving DecidableEq

/-- The outcome of one scanner step: go on, the first value is complete
(`consumed` tells whether the character read belongs to it), or an error. -/
inductive Scanned
  | more (s : Scanner)
  | done (s : Scanner) (consumed : Bool)
  | fail (e : DecodeError)

/-- The constant `maxNestingDepth` of the scanner. -/
def maxNestingDepth : Nat := 10000

/-- The white space of JSON, `isSpace` of the scanner. -/
def isJSONSpace (c : Char) : Bool :=
  c = ' ' || c = '\t' || c = '\r' || c = '\n'

/-- A decimal digit. -/
def isDigit (c : Char) : Bool :=
  '0'.toNat ≤ c.toNat && c.toNat ≤ '9'.toNat

/-- The value of a hexadecimal digit. -/
def hexValue (c : Char) : Option Nat :=
  if '0'.toNat ≤ c.toNat && c.toNat ≤ '9'.toNat then some (c.toNat - '0'.toNat)
  else if 'a'.toNat ≤ c.toNat && c.toNat ≤ 'f'.toNat then some (c.toNat - 'a'.toNat + 10)
  else if 'A'.toNat ≤ c.toNat && c.toNat ≤ 'F'.toNat then some (c.toNat - 'A'.toNat + 10)
  else none

/-- The scanner before the first character. -/
def Scanner.init : Scanner :=
  { step := ScanStep.beginValue, parseState := [], str := [], hex := 0, high := none,
    key := [], value := MemberValue.other, members := [], top := TopValue.other }

/-- The replacement character U+FFFD that stands for an unpaired surrogate. -/
def replacementChar : Char := Char.ofNat 0xFFFD

/-- A pending high surrogate that did not get its low half becomes U+FFFD. -/
def Scanner.flushHigh (s : Scanner) : Scanner :=
  match s.high with
  | none => s
  | some _ => { s with str := s.str ++ [replacementChar], high := none }

/-- A plain character, or the character of a simple escape, joins the string. -/
def Scanner.pushChar (s : Scanner) (c : Char) : Scanner :=
  { s.flushHigh with str := s.flushHigh.str ++ [c] }

/-- The UTF-16 code unit `u` of a completed `\u` escape joins the string: a high
surrogate waits for a low one, a pair gives one character, an unpaired
surrogate gives U+FFFD. -/
def Scanner.pushUnit (s : Scanner) (u : Nat) : Scanner :=
  match s.high with
  | some h =>
    if 0xDC00 ≤ u && u ≤ 0xDFFF then
      { s with str := s.str ++ [Char.ofNat (0x10000 + (h - 0xD800) * 0x400 + (u - 0xDC00))],
               high := none }
    else if 0xD800 ≤ u && u ≤ 0xDBFF then
      { s with str := s.str ++ [replacementChar], high := some u }
    else
      { s with str := s.str ++ [replacementChar, Char.ofNat u], high := none }
  | none =>
    if 0xD800 ≤ u && u ≤ 0xDBFF then { s with high := some u }
    else if 0xDC00 ≤ u && u ≤ 0xDFFF then { s with str := s.str ++ [replacementChar] }
    else { s with str := s.str ++ [Char.ofNat u] }

/-- The function `pushParseState`: a container opens. -/
def Scanner.push (s : Scanner) (p : ParseState) (next : ScanStep) : Scanned :=
  if s.parseState.length + 1 ≤ maxNestingDepth then
    Scanned.more { s with parseState := p :: s.parseState, step := next }
  else Scanned.fail DecodeError.exceededMaxDepth

/-- The function `popParseState`, with `stack` what is left of the parse stack:
a container closes, which completes the first value when the stack is empty. -/
def Scanner.pop (s : Scanner) (stack : List ParseState) : Scanned :=
  match stack with
  | [] => Scanned.done { s with parseState := [], step := ScanStep.endValue } true
  | _ :: _ => Scanned.more { s with parseState := stack, step := ScanStep.endValue }

/-- The step function `stateEndValue`. Between the members of the outermost
object the member just read is recorded. -/
def stateEndValue (s : Scanner) (c : Char) : Scanned :=
  match s.parseState with
  | [] => Scanned.done s false
  | ps :: stack =>
    if isJSONSpace c then Scanned.more { s with step := ScanStep.endValue }
    else
      match ps with
      | ParseState.objectKey =>
        if c = ':' then
          Scanned.more { s with parseState := ParseState.objectValue :: stack,
                                step := ScanStep.beginValue }
        else Scanned.fail (DecodeError.invalidCharacter c)
      | ParseState.objectValue =>
        let s1 : Scanner :=
          if stack = [] then { s with members := s.members ++ [(s.key, s.value)] } else s
        if c = ',' then
          Scanned.more { s1 with parseState := ParseState.objectKey :: stack,
                                 step := ScanStep.beginString }
        else if c = '}' then s1.pop stack
        else Scanned.fail (DecodeError.invalidCharacter c)
      | ParseState.arrayValue =>
        if c = ',' then Scanned.more { s with step := ScanStep.beginValue }
        else if c = ']' then s.pop stack
        else Scanned.fail (DecodeError.invalidCharacter c)

/-- The kind of a value is noted at its first character: that of the first
value of the body, and that of the value of a member of the outermost object
(a string is filled in when it closes). -/
def Scanner.noteValue (s : Scanner) (c : Char) : Scanner :=
  match s.parseState with
  | [] =>
    { s with top := if c = '{' then TopValue.object
                    else if c = 'n' then TopValue.null else TopValue.other }
  | [ParseState.objectValue] =>
    { s with value := if c = 'n' then MemberValue.null else MemberValue.other }
  | _ => s

/-- The step function `stateBeginValue`. -/
def stateBeginValue (s : Scanner) (c : Char) : Scanned :=
  if isJSONSpace c then Scanned.more s
  else
    let s1 := s.noteValue c
    if c = '{' then s1.push ParseState.objectKey ScanStep.beginStringOrEmpty
    else if c = '[' then s1.push ParseState.arrayValue ScanStep.beginValueOrEmpty
    else if c = '"' then
      Scanned.more { s1 with step := ScanStep.inString, str := [], high := none }
    else if c = '-' then Scanned.more { s1 with step := ScanStep.neg }
    else if c = '0' then Scanned.more { s1 with step := ScanStep.num0 }
    else if c = 't' then Scanned.more { s1 with step := ScanStep.inLiteral ['r', 'u', 'e'] }
    else if c = 'f' then
      Scanned.more { s1 with step := ScanStep.inLiteral ['a', 'l', 's', 'e'] }
    else if c = 'n' then Scanned.more { s1 with step := ScanStep.inLiteral ['u', 'l', 'l'] }
    else if isDigit c then Scanned.more { s1 with step := ScanStep.num1 }
    else Scanned.fail (DecodeError.invalidCharacter c)

/-- The step function `stateBeginString`. -/
def stateBeginString (s : Scanner) (c : Char) : Scanned :=
  if isJSONSpace c then Scanned.more s
  else if c = '"' then
    Scanned.more { s with step := ScanStep.inString, str := [], high := none }
  else Scanned.fail (DecodeError.invalidCharacter c)

/-- A string closes: it is the key or the value of a member of the outermost
object, or it is of no concern to the request. -/
def Scanner.closeString (s : Scanner) : Scanner :=
  let s1 := s.flushHigh
  match s1.parseState with
  | [ParseState.objectKey] => { s1 with key := s1.str, step := ScanStep.endValue }
  | [ParseState.objectValue] =>
    { s1 with value := MemberValue.string s1.str, step := ScanStep.endValue }
  | _ => { s1 with step := ScanStep.endValue }

/-- The character a simple escape stands for. -/
def escapeChar (c : Char) : Option Char :=
  if c = 'b' then some (Char.ofNat 8)
  else if c = 'f' then some (Char.ofNat 12)
  else if c = 'n' then some '\n'
  else if c = 'r' then some '\r'
  else if c = 't' then some '\t'
  else if c = '\\' then some '\\'
  else if c = '/' then some '/'
  else if c = '"' then some '"'
  else none

/-- One step of the scanner on the character `c`. -/
def Scanner.next (s : Scanner) (c : Char) : Scanned :=
  match s.step with
  | ScanStep.beginValue => stateBeginValue s c
  | ScanStep.beginValueOrEmpty =>
    if isJSONSpace c then Scanned.more s
    else if c = ']' then
      match s.parseState with
      | [] => Scanned.done s false
      | _ :: stack => s.pop stack
    else stateBeginValue s c
  | ScanStep.beginStringOrEmpty =>
    if isJSONSpace c then Scanned.more s
    else if c = '}' then
      match s.parseState with
      | [] => Scanned.done s false
      | _ :: stack => s.pop stack
    else stateBeginString s c
  | ScanStep.beginString => stateBeginString s c
  | ScanStep.inString =>
    if c = '"' then Scanned.more s.closeString
    else if c = '\\' then Scanned.more { s with step := ScanStep.inStringEsc }
    else if c.toNat < 0x20 then Scanned.fail (DecodeError.invalidCharacter c)
    else Scanned.more (s.pushChar c)
  | ScanStep.inStringEsc =>
    if c = 'u' then Scanned.more { s with step := ScanStep.inStringEscU 0, hex := 0 }
    else
      match escapeChar c with
      | some e => Scanned.more { s.pushChar e with step := ScanStep.inString }
      | none => Scanned.fail (DecodeError.invalidCharacter c)
  | ScanStep.inStringEscU seen =>
    match hexValue c with
    | none => Scanned.fail (DecodeError.invalidCharacter c)
    | some v =>
      if seen = 3 then
        Scanned.more { s.pushUnit (s.hex * 16 + v) with step := ScanStep.inString }
      else Scanned.more { s with step := ScanStep.inStringEscU (seen + 1), hex := s.hex * 16 + v }
  | ScanStep.neg =>
    if c = '0' then Scanned.more { s with step := ScanStep.num0 }
    else if isDigit c then Scanned.more { s with step := ScanStep.num1 }
    else Scanned.fail (DecodeError.invalidCharacter c)
  | ScanStep.num1 =>
    if isDigit c then Scanned.more s
    else if c = '.' then Scanned.more { s with step := ScanStep.dot }
    else if c = 'e' || c = 'E' then Scanned.more { s with step := ScanStep.exp }
    else stateEndValue s c
  | ScanStep.num0 =>
    if c = '.' then Scanned.more { s with step := ScanStep.dot }
    else if c = 'e' || c = 'E' then Scanned.more { s with step := ScanStep.exp }
    else stateEndValue s c
  | ScanStep.dot =>
    if isDigit c then Scanned.more { s with step := ScanStep.dot0 }
    else Scanned.fail (DecodeError.invalidCharacter c)
  | ScanStep.dot0 =>
    if isDigit c then Scanned.more s
    else if c = 'e' || c = 'E' then Scanned.more { s with step := ScanStep.exp }
    else stateEndValue s c
  | ScanStep.exp =>
    if c = '+' || c = '-' then Scanned.more { s with step := ScanStep.expSign }
    else if isDigit c then Scanned.more { s with step := ScanStep.exp0 }
    else Scanned.fail (DecodeError.invalidCharacter c)
  | ScanStep.expSign =>
    if isDigit c then Scanned.more { s with step := ScanStep.exp0 }
    else Scanned.fail (DecodeError.invalidCharacter c)
  | ScanStep.exp0 =>
    if isDigit c then Scanned.more s
    else stateEndValue s c
  | ScanStep.inLiteral due =>
    match due with
    | [] => stateEndValue s c
    | d :: ds =>
      if c = d then
        Scanned.more { s with step := if ds = [] then ScanStep.endValue
                                       else ScanStep.inLiteral ds }
      else Scanned.fail (DecodeError.invalidCharacter c)
  | ScanStep.endValue => stateEndValue s c

/-- The loop of `Decoder.readValue`: the scanner runs over the body until the
first JSON value is complete. The result is the decoder at that point and the
part of the body that was not read, which nothing reads afterwards. At the end
of the body the value is complete if a blank would complete it. -/
def readValue (s : Scanner) : List Char → Except DecodeError (Scanner × List Char)
  | [] =>
    match s.next ' ' with
    | Scanned.done s1 _ => Except.ok (s1, [])
    | _ =>
      if s.step = ScanStep.beginValue ∧ s.parseState = [] then Except.error DecodeError.eof
      else Except.error DecodeError.unexpectedEOF
  | c :: cs =>
    match s.next c with
    | Scanned.more s1 => readValue s1 cs
    | Scanned.done s1 consumed => Except.ok (s1, if consumed then cs else c :: cs)
    | Scanned.fail e => Except.error e

/-- The folding of a rune of an object key as far as it matters for a field
name in ASCII letters: letters fold to upper case, and the only other runes
that fold to an ASCII letter are the Kelvin sign (to `K`) and the long s
(to `S`). -/
def foldRune (c : Char) : Char :=
  if 'a'.toNat ≤ c.toNat && c.toNat ≤ 'z'.toNat then Char.ofNat (c.toNat - 32)
  else if c.toNat = 0x212A then 'K'
  else if c.toNat = 0x17F then 'S'
  else c

/-- Whether an object key names the struct field with the given JSON name: an
exact match, or a match under case folding. -/
def keyMatches (name key : List Char) : Bool :=
  key = name || key.map foldRune = name.map foldRune

/-- The request while the members of the object are stored into it, with the
first error saved by `saveError`. A field is `none` until a string is stored. -/
structure Unmarshal where
  project : Option String
  token : Option String
  savedError : Option DecodeError

/-- The function `saveError`: only the first error is kept. -/
def Unmarshal.saveError (u : Unmarshal) (e : DecodeError) : Unmarshal :=
  match u.savedError with
  | some _ => u
  | none => { u with savedError := some e }

/-- One member of the object is stored: a string goes into the field its key
names, `null` leaves the field as it is, any other value is a type error, and
a member whose key names no field is skipped. -/
def Unmarshal.store (u : Unmarshal) (m : List Char × MemberValue) : Unmarshal :=
  if keyMatches "project".data m.1 then
    match m.2 with
    | MemberValue.string v => { u with project := some (String.mk v) }
    | MemberValue.null => u
    | MemberValue.other =>
      u.saveError (DecodeError.typeMismatch "project")
  else if keyMatches "token".data m.1 then
    match m.2 with
    | MemberValue.string v => { u with token := some (String.mk v) }
    | MemberValue.null => u
    | MemberValue.other =>
      u.saveError (DecodeError.typeMismatch "token")
  else u

/-- The call `decoder.Decode(&req)` of gin on the request body, with `errText`
the text `err.Error()` of a decoder error: the first JSON value of the body is
read and stored into a `TokenRequest`. -/
def decodeJSON (errText : DecodeError → String) (body : List Char) : JsonBody :=
  match readValue Scanner.init body with
  | Except.error e => JsonBody.invalid (errText e)
  | Except.ok (s, _) =>
    match s.top with
    | TopValue.null => JsonBody.object none none
    | TopValue.other => JsonBody.invalid (errText (DecodeError.typeMismatch ""))
    | TopValue.object =>
      let u := s.members.foldl Unmarshal.store
        { project := none, token := none, savedError := none }
      match u.savedError with
      | some e => JsonBody.invalid (errText e)
      | none => JsonBody.object u.project u.token

/-- The handling of `POST /store` with the given request body: gin decodes the
body and `StoreTokenHandler` runs on the outcome. -/
def postStore (errText : DecodeError → String) (db : DB) (now : Nat) (body : List Char) :
    Response × DB :=
  StoreTokenHandler db now (decodeJSON errText body)

/-- A body is a JSON text when it holds one well-formed JSON value and, around
it, white space only. -/
def isJSONText (body : List Char) : Bool :=
  match readValue Scanner.init body with
  | Except.error _ => false
  | Except.ok (_, rest) => rest.all isJSONSpace

/-! ## The setup-postman script generator -/

/-- The constant `scriptPart1`. -/
def scriptPart1 : String :=
  "\n" ++
  "\tconst projectMap = \x7b\n"

/-- The constant `scriptPart2`. -/
def scriptPart2 : String :=
  "\x7d;\n" ++
  "\n" ++
  "var currentPort = pm.request.url.port;\n" ++
  "var currentHost = pm.request.url.getHost();\n" ++
  "\n" ++
  "var project = projectMap[currentPort];\n" ++
  "\n" ++
  "if (!project)\x7b\n" ++
  "\tproject = projectMap[currentHost];\n" ++
  "\x7d\n" ++
  "\n" ++
  "if (!project)\x7b\n" ++
  "\tconsole.log(\"TokenVault: No project mapped for port\" + currentPort + \". Skipping auti-fetch\");\n" ++
  "\x7delse\x7b\n" ++
  "\tconsole.log(\"TokenVault: Detected Port \" + currentPort + \" -> Fetching token for \x27 \" + project + \"\x27\");\n" ++
  "\n" ++
  "\tpm.sendRequest(\x7b\n" ++
  "\t\turl: \x27http://localhost:9999/fetch/\x27 + project,\n" ++
  "\t\tmethod: \x27GET\x27\n" ++
  "\t\x7d, function (err, res) \x7b\n" ++
  "\t\t\tif (!err && res.code === 200)\x7b\n" ++
  "\t\t\t\tvar data = res.json();\n" ++
  "\t\t\t\tpm.environment.set(\"token\", data.token);\n" ++
  "\t\t\t\tconsole.log(\"TokenVault: Token updated for \"+ project);\n" ++
  "\t\t\t\x7delse\x7b\n" ++
  "\t\t\t\tconsole.log(\"Tokenvault: Token not found for \" + project);\n" ++
  "\t\t\t\x7d\n" ++
  "\t\t\x7d\n" ++
  "\t)\n" ++
  "\x7d\n"

/-- The predicate `unicode.IsSpace`: the characters `strings.TrimSpace` removes. -/
def isSpace (c : Char) : Bool :=
  c = '\t' || c = '\n' || c.toNat = 0x0B || c.toNat = 0x0C || c = '\r' || c = ' ' ||
  c.toNat = 0x85 || c.toNat = 0xA0 || c.toNat = 0x1680 ||
  (0x2000 ≤ c.toNat && c.toNat ≤ 0x200A) ||
  c.toNat = 0x2028 || c.toNat = 0x2029 || c.toNat = 0x202F || c.toNat = 0x205F ||
  c.toNat = 0x3000

/-- The function `strings.TrimSpace`: leading, then trailing white space is cut. -/
def TrimSpace (s : List Char) : List Char :=
  (s.dropWhile isSpace).rdropWhile isSpace

/-- The call `reader.ReadString` with the newline as delimiter, on the unread
input: the text up to and including the first newline, or all of it when there
is none (the error is discarded by the caller), and the input left unread. -/
def ReadString : List Char → List Char × List Char
  | [] => ([], [])
  | c :: cs =>
    if c = '\n' then (['\n'], cs)
    else ((c :: (ReadString cs).1), (ReadString cs).2)

/-- The line `fmt.Sprintf` builds from the format with four leading blanks,
the port in quotes, a colon, the project in quotes and a comma. -/
def mappingLine (port project : List Char) : String :=
  "    \"" ++ String.mk port ++ "\": \"" ++ String.mk project ++ "\","

/-- The line appended when no mapping was entered. -/
def defaultLine : String :=
  "    \"5000\": \"example-project\", //Default Example"

/-- The loop `for i := 1; i <= 3; i++` of `SetupCmd`, with `rounds` the number
of iterations left, `input` the unread standard input and `configLines` the
lines collected so far; the result is `configLines` when the loop ends. -/
def promptLoop : Nat → List Char → List String → List String
  | 0, _, configLines => configLines
  | rounds + 1, input, configLines =>
    let port := TrimSpace (ReadString input).1
    if port = [] then configLines
    else
      let rest := (ReadString input).2
      let project := TrimSpace (ReadString rest).1
      if project = [] then promptLoop rounds (ReadString rest).2 configLines
      else promptLoop rounds (ReadString rest).2 (configLines ++ [mappingLine port project])

/-- The variable `configLines` of `SetupCmd` when the script is assembled. -/
def configLines (stdin : List Char) : List String :=
  let collected := promptLoop 3 stdin []
  if collected.length = 0 then collected ++ [defaultLine] else collected

/-- The `Run` function of `SetupCmd` on the text of standard input, taken as a
finite sequence of characters: the value of `finialScript`, the content written
to `tokenvault_script.js`. Console output is not represented. -/
def SetupCmd (stdin : List Char) : String :=
  scriptPart1 ++ "\n".intercalate (configLines stdin) ++ "\n" ++ scriptPart2

/-! ### The generator as the specification words it -/

/-- The code points of Unicode white space, the characters trimming removes:
tab, line feed, vertical tab, form feed, carriage return, blank, next line,
no-break space, ogham space mark, the spaces U+2000 to U+200A, line and
paragraph separator, narrow no-break space, medium mathematical space and
ideographic space. -/
def whiteSpaceCodes : List Nat :=
  [9, 10, 11, 12, 13, 32, 133, 160, 5760, 8192, 8193, 8194, 8195, 8196, 8197, 8198, 8199,
    8200, 8201, 8202, 8232, 8233, 8239, 8287, 12288]

/-- Whether a character is white space. -/
def isWhiteSpace (c : Char) : Bool :=
  decide (c.toNat ∈ whiteSpaceCodes)

/-- A text without its leading white space. -/
def specTrimLeft : List Char → List Char
  | [] => []
  | c :: cs => if isWhiteSpace c then specTrimLeft cs else c :: cs

/-- A text without its trailing white space. -/
def specTrimRight : List Char → List Char
  | [] => []
  | c :: cs =>
    match specTrimRight cs with
    | [] => if isWhiteSpace c then [] else [c]
    | d :: ds => c :: d :: ds

/-- A trimmed text: neither leading nor trailing white space is left. -/
def specTrim (s : List Char) : List Char :=
  specTrimRight (specTrimLeft s)

/-- The mapping line of a round: four blanks, the port in double quotes, a
colon and a blank, the project in double quotes, a comma. -/
def specLine (port project : List Char) : String :=
  String.mk ([' ', ' ', ' ', ' ', '"'] ++ port ++ ['"', ':', ' ', '"'] ++ project ++ ['"', ','])

/-- The default line, for port 5000 and the project `example-project`. -/
def specDefaultLine : String :=
  String.mk ("    \"5000\": \"example-project\",".data ++ " //Default Example".data)

/-- The lines of a text, without their newline terminators. -/
def inputLines : List Char → List (List Char)
  | [] => []
  | c :: cs =>
    if c = '\n' then [] :: inputLines cs
    else
      match inputLines cs with
      | [] => [[c]]
      | l :: ls => (c :: l) :: ls

/-- The prompt rounds: every round reads a port line and then a project line; a
line that standard input no longer provides reads as empty. -/
def promptRounds : List (List Char) → List (List Char × List Char)
  | [] => []
  | [port] => [(port, [])]
  | port :: project :: rest => (port, project) :: promptRounds rest

/-- The mapping lines of at most `n` rounds, with `line` the text of the line
of a round: one line for each round before the first whose trimmed port is
empty, leaving out the rounds whose trimmed project is empty. -/
def roundLines (line : List Char → List Char → String) (n : Nat) (ls : List (List Char)) :
    List String :=
  ((((promptRounds ls).take n).takeWhile (fun r => decide (specTrim r.1 ≠ []))).filter
    (fun r => decide (specTrim r.2 ≠ []))).map
    (fun r => line (specTrim r.1) (specTrim r.2))

/-- The mapping lines entered in at most `n` rounds. -/
def specCollected (n : Nat) (ls : List (List Char)) : List String :=
  roundLines specLine n ls

/-- The mapping lines of the script: those of at most three rounds, or the
single default line when there is none. -/
def specMappingLines (stdin : List Char) : List String :=
  if specCollected 3 (inputLines stdin) = [] then [specDefaultLine]
  else specCollected 3 (inputLines stdin)

/-- The generated script: `scriptPart1`, the mapping lines joined by newlines, a
newline and `scriptPart2`. -/
def specScript (stdin : List Char) : String :=
  scriptPart1 ++ "\n".intercalate (specMappingLines stdin) ++ "\n" ++ scriptPart2

/-- The mapping line without indentation: the port in double quotes, a colon
and a blank, the project in double quotes, a comma. -/
def unindentedLine (port project : List Char) : String :=
  String.mk (['"'] ++ port ++ ['"', ':', ' ', '"'] ++ project ++ ['"', ','])

/-- The script that would result from mapping lines without indentation. -/
def unindentedScript (stdin : List Char) : String :=
  scriptPart1 ++
    "\n".intercalate
      (if roundLines unindentedLine 3 (inputLines stdin) = [] then [specDefaultLine]
       else roundLines unindentedLine 3 (inputLines stdin)) ++
    "\n" ++ scriptPart2

/-! ## Storage layer: auxiliary facts -/

theorem createTableQuery_not_keyed (rows : List Row) :
    Table.keyed { schema := createTableQuery, rows := rows } = false := by
  rfl

theorem InitDB_emptyFile : InitDB healthyOS emptyFile = (freshDB, none) := by
  decide

/-- A database initialised from a file without the table is `freshDB`. -/
theorem InitDB_fresh_eq (os : OS) (file db : DB) (hfile : file.tokens = none)
    (hinit : InitDB os file = (db, none)) : db = freshDB := by
  obtain ⟨tokens, fault⟩ := file
  simp only at hfile
  subst hfile
  unfold InitDB at hinit
  cases hhome : os.userHomeDir <;> simp only [hhome] at hinit
  · simp at hinit
  cases hmk : os.mkdirAll <;> simp only [hmk] at hinit
  swap
  · simp at hinit
  cases hop : os.sqlOpen <;> simp only [hop] at hinit
  swap
  · simp at hinit
  cases fault with
  | some m => simp [execCreateTable] at hinit
  | none =>
    simp [execCreateTable] at hinit
    exact hinit.symm

/-- On a table without a key every `SaveToken` call appends its row. -/
theorem runSaves_unkeyed (schema : List ColumnDef) (ops : List SaveCall) :
    ∀ rows : List Row, Table.keyed { schema := schema, rows := [] } = false →
      runSaves { tokens := some { schema := schema, rows := rows }, fault := none } ops =
        { tokens := some { schema := schema, rows := rows ++ ops.map SaveCall.toRow },
          fault := none } := by
  induction ops with
  | nil => intro rows _; simp [runSaves]
  | cons c cs ih =>
    intro rows hk
    have hk2 : Table.keyed { schema := schema, rows := rows } = false := hk
    simp only [runSaves, SaveToken, execInsertOrReplace, insertOrReplace, hk2]
    simp only [Bool.false_eq_true, if_false]
    rw [ih _ hk]
    simp [SaveCall.toRow]

theorem runSaves_freshDB (ops : List SaveCall) :
    runSaves freshDB ops =
      { tokens := some { schema := createTableQuery, rows := ops.map SaveCall.toRow },
        fault := none } := by
  have h := runSaves_unkeyed createTableQuery ops [] rfl
  simpa [freshDB] using h

theorem filter_ne_then_eq (rows : List Row) (P Q : String) (h : P ≠ Q) :
    (rows.filter (fun x => x.project_name != P)).filter (fun x => x.project_name == Q) =
      rows.filter (fun x => x.project_name == Q) := by
  rw [List.filter_filter]
  congr 1
  funext x
  by_cases hx : x.project_name = Q
  · subst hx
    simp [Ne.symm h]
  · simp [hx]

/-- Had the table been created with a `PRIMARY KEY` on `project_name`, a
successful `SaveToken(P, T)` would be followed by `GetToken(P)` returning `T`. -/
theorem keyed_SaveToken_GetToken (t : Table) (now : Nat) (P T : String)
    (hk : t.keyed = true) :
    GetToken (SaveToken { tokens := some t, fault := none } now P T).1 P = (T, none) := by
  have hnone : (t.rows.filter (fun x => x.project_name != P)).filter
      (fun x => x.project_name == P) = [] := by
    rw [List.filter_eq_nil_iff]
    intro r hr
    have hne := (List.mem_filter.mp hr).2
    simpa using hne
  simp [GetToken, queryRowScan, querySelect, SaveToken, execInsertOrReplace,
    insertOrReplace, hk, List.filter_append, hnone]

/-! ## Storage layer: properties -/

/-- C1: on the freshly initialised database, after `SaveToken("acme", "abc123")`
the call `SaveToken("acme", "xyz789")` succeeds and the `GetToken("acme")` that
follows returns the older token `"abc123"` with no error, not the token just
saved. -/
theorem SaveToken_GetToken_returns_first_saved :
    InitDB healthyOS emptyFile = (freshDB, none) ∧
    (SaveToken (runSaves freshDB [⟨1, "acme", "abc123"⟩]) 2 "acme" "xyz789").2 = none ∧
    GetToken (SaveToken (runSaves freshDB [⟨1, "acme", "abc123"⟩]) 2 "acme" "xyz789").1 "acme"
      = ("abc123", none) := by
  decide

/-- C2: for every project `P` and tokens `T1`, `T2`, after `SaveToken(P, T1)`
and then `SaveToken(P, T2)` on the freshly initialised database both calls
succeed and `GetToken(P)` returns `T1`, the value saved first. -/
theorem save_twice_GetToken_first (P T1 T2 : String) (n1 n2 : Nat) :
    (SaveToken freshDB n1 P T1).2 = none ∧
    (SaveToken (SaveToken freshDB n1 P T1).1 n2 P T2).2 = none ∧
    GetToken (runSaves freshDB [⟨n1, P, T1⟩, ⟨n2, P, T2⟩]) P = (T1, none) := by
  refine ⟨rfl, rfl, ?_⟩
  rw [runSaves_freshDB]
  simp [GetToken, queryRowScan, querySelect, SaveCall.toRow]

/-- C3: in the state reached from the freshly initialised database by any
sequence of `SaveToken` calls the table holds one row per call, so the number
of rows of a project is the number of calls made for it, and one more
`SaveToken` on that project adds one more row. -/
theorem rowCount_runSaves (ops : List SaveCall) (P T : String) (now : Nat) :
    rowCount (runSaves freshDB ops) P = (ops.filter (fun c => c.project == P)).length ∧
    rowCount (SaveToken (runSaves freshDB ops) now P T).1 P =
      rowCount (runSaves freshDB ops) P + 1 := by
  have hcount : ∀ l : List SaveCall,
      ((l.map SaveCall.toRow).filter (fun x => x.project_name == P)).length =
        (l.filter (fun c => c.project == P)).length := by
    intro l
    induction l with
    | nil => rfl
    | cons c cs ih =>
      by_cases hc : c.project = P
      · simp [List.filter_cons, SaveCall.toRow, hc] at ih ⊢
        exact ih
      · simp [List.filter_cons, SaveCall.toRow, hc] at ih ⊢
        exact ih
  constructor
  · rw [runSaves_freshDB]
    simpa [rowCount] using hcount ops
  · rw [runSaves_freshDB]
    simp [rowCount, SaveToken, execInsertOrReplace, insertOrReplace,
      createTableQuery_not_keyed, List.filter_append]

/-- C4: on a database initialised by `InitDB` from a file without the `tokens`
table, and after any sequence of `SaveToken` calls none of which names project
`P`, `GetToken(P)` returns the empty string and `sql.ErrNoRows`; so does
`GetToken(P)` right after the initialisation. -/
theorem GetToken_never_saved (os : OS) (file db : DB) (ops : List SaveCall) (P : String)
    (hfile : file.tokens = none) (hinit : InitDB os file = (db, none))
    (hops : ∀ c ∈ ops, c.project ≠ P) :
    GetToken (runSaves db ops) P = ("", some DbError.ErrNoRows) ∧
    GetToken db P = ("", some DbError.ErrNoRows) := by
  have hdb := InitDB_fresh_eq os file db hfile hinit
  subst hdb
  refine ⟨?_, rfl⟩
  rw [runSaves_freshDB]
  have hnone : (ops.map SaveCall.toRow).filter (fun x => x.project_name == P) = [] := by
    rw [List.filter_eq_nil_iff]
    intro r hr
    obtain ⟨c, hc, rfl⟩ := List.mem_map.mp hr
    simpa [SaveCall.toRow] using hops c hc
  simp [GetToken, queryRowScan, querySelect, hnone]

theorem GetToken_never_saved_witness :
    emptyFile.tokens = none ∧ InitDB healthyOS emptyFile = (freshDB, none) ∧
    (∀ c ∈ [(⟨1, "acme", "abc123"⟩ : SaveCall), ⟨2, "beta", "k9"⟩], c.project ≠ "gamma") ∧
    GetToken (runSaves freshDB [⟨1, "acme", "abc123"⟩, ⟨2, "beta", "k9"⟩]) "gamma"
      = ("", some DbError.ErrNoRows) ∧
    GetToken freshDB "gamma" = ("", some DbError.ErrNoRows) :=
  ⟨rfl, by decide, by decide,
    GetToken_never_saved healthyOS emptyFile freshDB [⟨1, "acme", "abc123"⟩, ⟨2, "beta", "k9"⟩]
      "gamma" rfl (by decide) (by decide)⟩

/-- C8: running `InitDB` on a database that already holds the `tokens` table
leaves the database as it was, whether the call returns or ends the process:
the table keeps exactly its rows and `GetToken(P)` gives the same result for
every `P`; and when the operating-system calls succeed and the driver reports
no failure the call returns. -/
theorem InitDB_existing_table_unchanged (os : OS) (file : DB) (t : Table)
    (h : file.tokens = some t) :
    (InitDB os file).1 = file ∧
    (InitDB os file).1.tokens = some t ∧
    (∀ P, GetToken (InitDB os file).1 P = GetToken file P) ∧
    (∀ home, os.userHomeDir = Except.ok home → os.mkdirAll = none → os.sqlOpen = none →
      file.fault = none → InitDB os file = (file, none)) := by
  have hexec : (execCreateTable file).1 = file := by
    unfold execCreateTable
    cases hf : file.fault <;> simp [h]
  have hfst : (InitDB os file).1 = file := by
    unfold InitDB
    cases hhome : os.userHomeDir with
    | error e => rfl
    | ok home =>
      cases hmk : os.mkdirAll with
      | some e => rfl
      | none =>
        cases hop : os.sqlOpen with
        | some e => rfl
        | none =>
          simp only
          rcases hres : execCreateTable file with ⟨db, _ | e⟩
          · rw [hres] at hexec; exact hexec
          · rw [hres] at hexec; exact hexec
  refine ⟨hfst, by rw [hfst]; exact h, fun P => by rw [hfst], ?_⟩
  intro home hhome hmk hop hfault
  unfold InitDB
  simp [hhome, hmk, hop, execCreateTable, hfault, h]

theorem InitDB_existing_table_unchanged_witness :
    (runSaves freshDB [⟨1, "acme", "abc123"⟩]).tokens =
      some { schema := createTableQuery, rows := [⟨"acme", "abc123", 1⟩] } ∧
    InitDB healthyOS (runSaves freshDB [⟨1, "acme", "abc123"⟩]) =
      (runSaves freshDB [⟨1, "acme", "abc123"⟩], none) :=
  ⟨rfl, (InitDB_existing_table_unchanged healthyOS (runSaves freshDB [⟨1, "acme", "abc123"⟩])
      { schema := createTableQuery, rows := [⟨"acme", "abc123", 1⟩] } rfl).2.2.2
      "/home/dev" rfl rfl rfl rfl⟩

/-- C9: in every database state, for projects `P ≠ Q` and every token `T`,
`SaveToken(P, T)` leaves the result of `GetToken(Q)` as it was: the same token
or the same error. -/
theorem SaveToken_frame (db : DB) (now : Nat) (P Q T : String) (h : P ≠ Q) :
    GetToken (SaveToken db now P T).1 Q = GetToken db Q := by
  obtain ⟨tokens, fault⟩ := db
  cases fault with
  | some m => rfl
  | none =>
    cases tokens with
    | none => rfl
    | some t =>
      have hq : (P == Q) = false := by simpa using h
      by_cases hk : t.keyed = true
      · simp [GetToken, queryRowScan, querySelect, SaveToken, execInsertOrReplace,
          insertOrReplace, hk, List.filter_append, filter_ne_then_eq _ P Q h, hq]
      · simp [GetToken, queryRowScan, querySelect, SaveToken, execInsertOrReplace,
          insertOrReplace, hk, List.filter_append, hq]

theorem SaveToken_frame_witness :
    "acme" ≠ "beta" ∧
    GetToken (SaveToken (runSaves freshDB [⟨1, "beta", "k9"⟩]) 2 "acme" "abc123").1 "beta" =
      GetToken (runSaves freshDB [⟨1, "beta", "k9"⟩]) "beta" :=
  ⟨by decide, SaveToken_frame (runSaves freshDB [⟨1, "beta", "k9"⟩]) 2 "acme" "beta" "abc123"
    (by decide)⟩

/-! ## Request layer: properties -/

theorem validateRequired_ne_nil (req : TokenRequest) (h : req.Project = "" ∨ req.Token = "") :
    validateRequired req ≠ [] := by
  unfold validateRequired
  rcases h with h | h
  · simp [h]
  · simp [h]

theorem validateRequired_eq_nil (req : TokenRequest) (hp : req.Project ≠ "")
    (ht : req.Token ≠ "") : validateRequired req = [] := by
  simp [validateRequired, hp, ht]

theorem ShouldBindJSON_rejects (body : JsonBody)
    (h : (∃ err, body = JsonBody.invalid err) ∨
      ∃ p t, body = JsonBody.object p t ∧ (p = none ∨ p = some "" ∨ t = none ∨ t = some "")) :
    ∃ err, ShouldBindJSON body = Except.error err := by
  rcases h with ⟨err, rfl⟩ | ⟨p, t, rfl, hpt⟩
  · exact ⟨err, rfl⟩
  · have hreq : validateRequired { Project := p.getD "", Token := t.getD "" } ≠ [] := by
      apply validateRequired_ne_nil
      rcases hpt with h | h | h | h <;> simp [h]
    unfold ShouldBindJSON
    simp only
    cases hv : validateRequired { Project := p.getD "", Token := t.getD "" } with
    | nil => exact absurd hv hreq
    | cons e es => exact ⟨_, rfl⟩

/-- When the decoder rejects the body, or the project or the token it yields
is absent or empty, `StoreTokenHandler` answers on its first branch: status 400
with the binding error under the key `error`, and the database is the one it
started from. -/
theorem StoreTokenHandler_bad_request (db : DB) (now : Nat) (body : JsonBody)
    (h : (∃ err, body = JsonBody.invalid err) ∨
      ∃ p t, body = JsonBody.object p t ∧ (p = none ∨ p = some "" ∨ t = none ∨ t = some "")) :
    (∃ err, StoreTokenHandler db now body = ({ status := 400, body := [("error", err)] }, db)) ∧
    (StoreTokenHandler db now body).1.status = 400 ∧
    (StoreTokenHandler db now body).2 = db ∧
    ∀ P, rowCount (StoreTokenHandler db now body).2 P = rowCount db P := by
  obtain ⟨err, herr⟩ := ShouldBindJSON_rejects body h
  have hres : StoreTokenHandler db now body =
      ({ status := 400, body := [("error", err)] }, db) := by
    simp [StoreTokenHandler, herr, StatusBadRequest]
  refine ⟨⟨err, hres⟩, ?_, ?_, ?_⟩
  · rw [hres]
  · rw [hres]
  · intro P
    rw [hres]

/-- Once an error is saved, storing further members keeps an error saved. -/
theorem savedError_foldl (ms : List (List Char × MemberValue)) :
    ∀ u : Unmarshal, u.savedError ≠ none →
      (ms.foldl Unmarshal.store u).savedError ≠ none := by
  induction ms with
  | nil => intro u hu; exact hu
  | cons m ms ih =>
    intro u hu
    apply ih
    obtain ⟨e, he⟩ := Option.ne_none_iff_exists'.mp hu
    unfold Unmarshal.store
    split_ifs
    · cases m.2 <;> simp [Unmarshal.saveError, he]
    · cases m.2 <;> simp [Unmarshal.saveError, he]
    · exact hu

/-- A member that names a field and holds neither a string nor `null` leaves
an error saved. -/
theorem savedError_of_mismatch (ms : List (List Char × MemberValue))
    (m : List Char × MemberValue) (hm : m ∈ ms)
    (hkey : keyMatches "project".data m.1 = true ∨ keyMatches "token".data m.1 = true)
    (hval : m.2 = MemberValue.other) :
    ∀ u : Unmarshal, (ms.foldl Unmarshal.store u).savedError ≠ none := by
  induction ms with
  | nil => exact absurd hm (List.not_mem_nil m)
  | cons a as ih =>
    intro u
    rcases List.mem_cons.mp hm with h | h
    · subst h
      rw [List.foldl_cons]
      apply savedError_foldl
      unfold Unmarshal.store
      rw [hval]
      by_cases hp : keyMatches "project".data m.1 = true
      · simp only [hp, if_true]
        cases hs : u.savedError <;> simp [Unmarshal.saveError, hs]
      · have ht : keyMatches "token".data m.1 = true := hkey.resolve_left hp
        simp only [hp, ht, if_true]
        cases hs : u.savedError <;> simp [Unmarshal.saveError, hs]
    · exact ih h _

/-- Members whose keys do not name `project` leave the project unset. -/
theorem project_foldl_none (ms : List (List Char × MemberValue))
    (hms : ∀ m ∈ ms, keyMatches "project".data m.1 = false) :
    ∀ u : Unmarshal, u.project = none → (ms.foldl Unmarshal.store u).project = none := by
  induction ms with
  | nil => intro u hu; exact hu
  | cons a as ih =>
    intro u hu
    rw [List.foldl_cons]
    apply ih (fun m hm => hms m (List.mem_cons_of_mem a hm))
    have ha := hms a (List.mem_cons_self a as)
    unfold Unmarshal.store
    simp only [ha, Bool.false_eq_true, if_false]
    split_ifs
    · cases a.2 <;> simp only [hu, Unmarshal.saveError]
      cases u.savedError <;> simp [hu]
    · exact hu

/-- Members whose keys do not name `token` leave the token unset. -/
theorem token_foldl_none (ms : List (List Char × MemberValue))
    (hms : ∀ m ∈ ms, keyMatches "token".data m.1 = false) :
    ∀ u : Unmarshal, u.token = none → (ms.foldl Unmarshal.store u).token = none := by
  induction ms with
  | nil => intro u hu; exact hu
  | cons a as ih =>
    intro u hu
    rw [List.foldl_cons]
    apply ih (fun m hm => hms m (List.mem_cons_of_mem a hm))
    have ha := hms a (List.mem_cons_self a as)
    unfold Unmarshal.store
    simp only [ha, Bool.false_eq_true, if_false]
    split_ifs
    · cases a.2 <;> simp only [hu, Unmarshal.saveError]
      cases u.savedError <;> simp [hu]
    · exact hu

/-- C5: the body `{"project":"acme","token":"abc123"} trailing garbage }}}` of a
`POST /store` request is not a JSON text, yet the handler answers 200 and
`SaveToken` writes the row for `acme`: the decoder reads the first JSON value
only. -/
theorem postStore_trailing_garbage_saved :
    isJSONText
      "\x7b\"project\":\"acme\",\"token\":\"abc123\"\x7d trailing garbage \x7d\x7d\x7d".data
        = false ∧
    postStore (fun _ => "decode error") freshDB 1
      "\x7b\"project\":\"acme\",\"token\":\"abc123\"\x7d trailing garbage \x7d\x7d\x7d".data
        = ({ status := 200, body := [("status", "saved"), ("project", "acme")] },
           { tokens := some { schema := createTableQuery, rows := [⟨"acme", "abc123", 1⟩] },
             fault := none }) := by
  decide

/-- C5: `POST /store` is answered with status 400, the binding error under
the key `error` and no call of `SaveToken` (the database and its rows are as
before) whenever the body does not begin with a complete well-formed JSON
value, or that value is not an object, or the object holds under `project` or
`token` a value that is neither a string nor `null`, or the object has no
member named `project` or none named `token`, or the project or the token the
decoder yields is absent or empty. -/
theorem postStore_bad_request (errText : DecodeError → String) (db : DB) (now : Nat)
    (body : List Char)
    (h : (∃ e, readValue Scanner.init body = Except.error e) ∨
      (∃ s rest, readValue Scanner.init body = Except.ok (s, rest) ∧
        s.top ≠ TopValue.object) ∨
      (∃ s rest, readValue Scanner.init body = Except.ok (s, rest) ∧
        ∃ m ∈ s.members,
          (keyMatches "project".data m.1 = true ∨ keyMatches "token".data m.1 = true) ∧
          m.2 = MemberValue.other) ∨
      (∃ s rest, readValue Scanner.init body = Except.ok (s, rest) ∧
        ∀ m ∈ s.members, keyMatches "project".data m.1 = false) ∨
      (∃ s rest, readValue Scanner.init body = Except.ok (s, rest) ∧
        ∀ m ∈ s.members, keyMatches "token".data m.1 = false) ∨
      (∃ p t, decodeJSON errText body = JsonBody.object p t ∧
        (p = none ∨ p = some "" ∨ t = none ∨ t = some ""))) :
    (∃ err, postStore errText db now body =
      ({ status := 400, body := [("error", err)] }, db)) ∧
    (postStore errText db now body).1.status = 400 ∧
    (postStore errText db now body).2 = db ∧
    ∀ P, rowCount (postStore errText db now body).2 P = rowCount db P := by
  have hbody : (∃ err, decodeJSON errText body = JsonBody.invalid err) ∨
      ∃ p t, decodeJSON errText body = JsonBody.object p t ∧
        (p = none ∨ p = some "" ∨ t = none ∨ t = some "") := by
    rcases h with ⟨e, he⟩ | ⟨s, rest, hs, htop⟩ | ⟨s, rest, hs, m, hm, hkey, hval⟩ |
      ⟨s, rest, hs, hno⟩ | ⟨s, rest, hs, hno⟩ | h4
    · left
      exact ⟨errText e, by simp [decodeJSON, he]⟩
    · cases htop' : s.top with
      | object => exact absurd htop' htop
      | null =>
        right
        exact ⟨none, none, by simp [decodeJSON, hs, htop'], Or.inl rfl⟩
      | other =>
        left
        exact ⟨errText (DecodeError.typeMismatch ""), by simp [decodeJSON, hs, htop']⟩
    · cases htop' : s.top with
      | null =>
        right
        exact ⟨none, none, by simp [decodeJSON, hs, htop'], Or.inl rfl⟩
      | other =>
        left
        exact ⟨errText (DecodeError.typeMismatch ""), by simp [decodeJSON, hs, htop']⟩
      | object =>
        left
        have herr := savedError_of_mismatch s.members m hm hkey hval
          { project := none, token := none, savedError := none }
        obtain ⟨e, he⟩ := Option.ne_none_iff_exists'.mp herr
        exact ⟨errText e, by simp [decodeJSON, hs, htop', he]⟩
    · cases htop' : s.top with
      | null =>
        right
        exact ⟨none, none, by simp [decodeJSON, hs, htop'], Or.inl rfl⟩
      | other =>
        left
        exact ⟨errText (DecodeError.typeMismatch ""), by simp [decodeJSON, hs, htop']⟩
      | object =>
        have hp := project_foldl_none s.members hno
          { project := none, token := none, savedError := none } rfl
        cases herr : (s.members.foldl Unmarshal.store
            { project := none, token := none, savedError := none }).savedError with
        | some e =>
          left
          exact ⟨errText e, by simp [decodeJSON, hs, htop', herr]⟩
        | none =>
          right
          exact ⟨none, (s.members.foldl Unmarshal.store
            { project := none, token := none, savedError := none }).token,
            by simp [decodeJSON, hs, htop', herr, hp], Or.inl rfl⟩
    · cases htop' : s.top with
      | null =>
        right
        exact ⟨none, none, by simp [decodeJSON, hs, htop'], Or.inl rfl⟩
      | other =>
        left
        exact ⟨errText (DecodeError.typeMismatch ""), by simp [decodeJSON, hs, htop']⟩
      | object =>
        have ht := token_foldl_none s.members hno
          { project := none, token := none, savedError := none } rfl
        cases herr : (s.members.foldl Unmarshal.store
            { project := none, token := none, savedError := none }).savedError with
        | some e =>
          left
          exact ⟨errText e, by simp [decodeJSON, hs, htop', herr]⟩
        | none =>
          right
          exact ⟨(s.members.foldl Unmarshal.store
            { project := none, token := none, savedError := none }).project, none,
            by simp [decodeJSON, hs, htop', herr, ht], Or.inr (Or.inr (Or.inl rfl))⟩
    · exact Or.inr h4
  exact StoreTokenHandler_bad_request db now (decodeJSON errText body) hbody

theorem postStore_bad_request_witness :
    decodeJSON (fun _ => "decode error") "\x7b\"project\":\"acme\"\x7d".data =
      JsonBody.object (some "acme") none ∧
    (postStore (fun _ => "decode error") freshDB 1 "\x7b\"project\":\"acme\"\x7d".data).1.status
      = 400 ∧
    (postStore (fun _ => "decode error") freshDB 1 "\x7b\"project\":\"acme\"\x7d".data).2
      = freshDB ∧
    readValue Scanner.init "\x7b\"project\":\"acme\",\"token\":".data =
      Except.error DecodeError.unexpectedEOF ∧
    (postStore (fun _ => "decode error") freshDB 1
      "\x7b\"project\":\"acme\",\"token\":".data).1.status = 400 ∧
    (postStore (fun _ => "decode error") freshDB 1
      "\x7b\"project\":\"acme\",\"token\":".data).2 = freshDB :=
  ⟨by decide,
    (postStore_bad_request (fun _ => "decode error") freshDB 1
      "\x7b\"project\":\"acme\"\x7d".data
      (Or.inr (Or.inr (Or.inr (Or.inr (Or.inr
        ⟨some "acme", none, by decide, Or.inr (Or.inr (Or.inl rfl))⟩)))))).2.1,
    (postStore_bad_request (fun _ => "decode error") freshDB 1
      "\x7b\"project\":\"acme\"\x7d".data
      (Or.inr (Or.inr (Or.inr (Or.inr (Or.inr
        ⟨some "acme", none, by decide, Or.inr (Or.inr (Or.inl rfl))⟩)))))).2.2.1,
    rfl,
    (postStore_bad_request (fun _ => "decode error") freshDB 1
      "\x7b\"project\":\"acme\",\"token\":".data
      (Or.inl ⟨DecodeError.unexpectedEOF, rfl⟩)).2.1,
    (postStore_bad_request (fun _ => "decode error") freshDB 1
      "\x7b\"project\":\"acme\",\"token\":".data
      (Or.inl ⟨DecodeError.unexpectedEOF, rfl⟩)).2.2.1⟩

/-- C6: while the driver reports a disk I/O error, and likewise while the
`tokens` table is missing, `GetToken` fails with an error other than
`sql.ErrNoRows` and `GetTokenHandler` answers 404 with the body
`error: token Not Found`, not a server error. -/
theorem GetTokenHandler_storage_failure_404 :
    GetToken { tokens := freshDB.tokens, fault := some "disk I/O error" } "acme" =
      ("", some (DbError.driver "disk I/O error")) ∧
    GetTokenHandler { tokens := freshDB.tokens, fault := some "disk I/O error" } "acme" =
      { status := 404, body := [("error", "token Not Found")] } ∧
    GetToken emptyFile "acme" = ("", some DbError.noSuchTable) ∧
    GetTokenHandler emptyFile "acme" =
      { status := 404, body := [("error", "token Not Found")] } := by
  decide

/-- The two branches of `GetTokenHandler`: 200 with the token when `GetToken`
returns no error, 404 with a fixed body on every error. -/
theorem GetTokenHandler_cases (db : DB) (P : String) :
    ((GetToken db P).2 = none ∧
      GetTokenHandler db P = { status := 200, body := [("token", (GetToken db P).1)] }) ∨
    ((GetToken db P).2 ≠ none ∧
      GetTokenHandler db P = { status := 404, body := [("error", "token Not Found")] }) := by
  unfold GetTokenHandler
  rcases hg : GetToken db P with ⟨token, _ | e⟩
  · left; exact ⟨rfl, rfl⟩
  · right; exact ⟨by simp, rfl⟩

/-- C7: when the body of a `POST /store` request binds to a non-empty project
`p` and a non-empty token `t`, the database `StoreTokenHandler` leaves is the
one left by a single `SaveToken(p, t)`; the response is 200 with `status: saved`
and `project: p` when that call returns no error, and 500 with the fixed body
`error: Failed to save token` when it returns an error, whichever error it is. -/
theorem StoreTokenHandler_bound (db : DB) (now : Nat) (p t : String)
    (hp : p ≠ "") (ht : t ≠ "") :
    (StoreTokenHandler db now (JsonBody.object (some p) (some t))).2 =
      (SaveToken db now p t).1 ∧
    ((SaveToken db now p t).2 = none →
      (StoreTokenHandler db now (JsonBody.object (some p) (some t))).1 =
        { status := 200, body := [("status", "saved"), ("project", p)] }) ∧
    (∀ e, (SaveToken db now p t).2 = some e →
      (StoreTokenHandler db now (JsonBody.object (some p) (some t))).1 =
        { status := 500, body := [("error", "Failed to save token")] }) := by
  have hbind : ShouldBindJSON (JsonBody.object (some p) (some t)) =
      Except.ok { Project := p, Token := t } := by
    have hv : validateRequired { Project := p, Token := t } = [] :=
      validateRequired_eq_nil _ hp ht
    simp [ShouldBindJSON, hv]
  unfold StoreTokenHandler
  rw [hbind]
  simp only
  rcases hs : SaveToken db now p t with ⟨db1, _ | e⟩
  · exact ⟨rfl, fun _ => rfl, fun e he => by simp at he⟩
  · exact ⟨rfl, fun he => by simp at he, fun _ _ => rfl⟩

theorem StoreTokenHandler_bound_witness :
    "acme" ≠ "" ∧ "abc123" ≠ "" ∧
    StoreTokenHandler freshDB 7 (JsonBody.object (some "acme") (some "abc123")) =
      ({ status := 200, body := [("status", "saved"), ("project", "acme")] },
        { tokens := some { schema := createTableQuery, rows := [⟨"acme", "abc123", 7⟩] },
          fault := none }) ∧
    StoreTokenHandler { tokens := freshDB.tokens, fault := some "disk I/O error" } 7
        (JsonBody.object (some "acme") (some "abc123")) =
      ({ status := 500, body := [("error", "Failed to save token")] },
        { tokens := freshDB.tokens, fault := some "disk I/O error" }) :=
  ⟨by decide, by decide,
    Prod.ext
      ((StoreTokenHandler_bound freshDB 7 "acme" "abc123" (by decide) (by decide)).2.1 rfl)
      (StoreTokenHandler_bound freshDB 7 "acme" "abc123" (by decide) (by decide)).1,
    Prod.ext
      ((StoreTokenHandler_bound { tokens := freshDB.tokens, fault := some "disk I/O error" } 7
        "acme" "abc123" (by decide) (by decide)).2.2 (DbError.driver "disk I/O error") rfl)
      (StoreTokenHandler_bound { tokens := freshDB.tokens, fault := some "disk I/O error" } 7
        "acme" "abc123" (by decide) (by decide)).1⟩

/-! ## The setup-postman script generator: properties -/

theorem isSpace_newline : isSpace '\n' = true := by
  decide

theorem TrimSpace_nil : TrimSpace [] = [] := by
  rfl

/-- A trailing newline does not change the trimmed text. -/
theorem TrimSpace_append_newline (l : List Char) :
    TrimSpace (l ++ ['\n']) = TrimSpace l := by
  unfold TrimSpace
  induction l with
  | nil => simp [List.dropWhile, isSpace_newline, List.rdropWhile]
  | cons a l ih =>
    by_cases ha : isSpace a = true
    · simpa [List.dropWhile, ha] using ih
    · have h1 : List.dropWhile isSpace (a :: l ++ ['\n']) = (a :: l) ++ ['\n'] := by
        simp [List.dropWhile, ha]
      have h2 : List.dropWhile isSpace (a :: l) = a :: l := by
        simp [List.dropWhile, ha]
      rw [h1, h2]
      exact List.rdropWhile_concat_pos isSpace (a :: l) '\n' isSpace_newline

/-- What `ReadString` returns is the first line of the input, with or without
its terminator, and it leaves the remaining lines unread. -/
theorem ReadString_inputLines (input : List Char) (h : input ≠ []) :
    ∃ hd, inputLines input = hd :: inputLines (ReadString input).2 ∧
      ((ReadString input).1 = hd ++ ['\n'] ∨ (ReadString input).1 = hd) := by
  induction input with
  | nil => exact absurd rfl h
  | cons c cs ih =>
    by_cases hc : c = '\n'
    · refine ⟨[], ?_, Or.inl ?_⟩
      · simp [inputLines, ReadString, hc]
      · simp [ReadString, hc]
    · cases cs with
      | nil =>
        refine ⟨[c], ?_, Or.inr ?_⟩
        · simp [inputLines, ReadString, hc]
        · simp [ReadString, hc]
      | cons d ds =>
        obtain ⟨hd, hlines, hread⟩ := ih (by simp)
        have hcons : ReadString (c :: d :: ds) =
            (c :: (ReadString (d :: ds)).1, (ReadString (d :: ds)).2) := by
          rw [ReadString.eq_def]
          simp [hc]
        refine ⟨c :: hd, ?_, ?_⟩
        · rw [inputLines]
          simp only [hc, if_false]
          rw [hlines, hcons]
        · rw [hcons]
          rcases hread with hr | hr
          · left
            simp [hr]
          · right
            simp [hr]

theorem ReadString_trim (input : List Char) (h : input ≠ []) :
    ∃ hd, inputLines input = hd :: inputLines (ReadString input).2 ∧
      TrimSpace (ReadString input).1 = TrimSpace hd := by
  obtain ⟨hd, hlines, hread⟩ := ReadString_inputLines input h
  refine ⟨hd, hlines, ?_⟩
  rcases hread with hr | hr
  · rw [hr, TrimSpace_append_newline]
  · rw [hr]

theorem char_eq_iff_toNat (c d : Char) : c = d ↔ c.toNat = d.toNat := by
  constructor
  · intro h
    rw [h]
  · intro h
    apply Char.ext
    apply UInt32.ext
    exact h

/-- The predicate `unicode.IsSpace` holds of the Unicode white space. -/
theorem isSpace_eq_isWhiteSpace (c : Char) : isSpace c = isWhiteSpace c := by
  rw [Bool.eq_iff_iff]
  simp only [isSpace, isWhiteSpace, whiteSpaceCodes, char_eq_iff_toNat c, Bool.or_eq_true,
    Bool.and_eq_true, decide_eq_true_eq, List.mem_cons, List.mem_singleton,
    List.not_mem_nil, or_false]
  have h1 : '\t'.toNat = 9 := rfl
  have h2 : '\n'.toNat = 10 := rfl
  have h3 : '\r'.toNat = 13 := rfl
  have h4 : ' '.toNat = 32 := rfl
  rw [h1, h2, h3, h4]
  generalize c.toNat = n
  omega

theorem specTrimLeft_eq (s : List Char) : specTrimLeft s = s.dropWhile isSpace := by
  induction s with
  | nil => rfl
  | cons c cs ih =>
    by_cases hc : isWhiteSpace c = true
    · simp [specTrimLeft, List.dropWhile, isSpace_eq_isWhiteSpace, hc, ih]
    · simp [specTrimLeft, List.dropWhile, isSpace_eq_isWhiteSpace, hc]

theorem rdropWhile_cons (p : Char → Bool) (c : Char) (cs : List Char) :
    List.rdropWhile p (c :: cs) =
      match List.rdropWhile p cs with
      | [] => if p c then [] else [c]
      | d :: ds => c :: d :: ds := by
  induction cs using List.reverseRecOn with
  | nil => simp [List.rdropWhile_singleton]
  | append_singleton l a ih =>
    by_cases ha : p a = true
    · rw [← List.cons_append, List.rdropWhile_concat_pos _ _ _ ha,
        List.rdropWhile_concat_pos _ _ _ ha]
      exact ih
    · rw [← List.cons_append, List.rdropWhile_concat_neg _ _ _ ha,
        List.rdropWhile_concat_neg _ _ _ ha]
      cases l <;> simp

theorem specTrimRight_eq (s : List Char) : specTrimRight s = s.rdropWhile isSpace := by
  induction s with
  | nil => simp [specTrimRight]
  | cons c cs ih =>
    rw [specTrimRight, rdropWhile_cons, ih, isSpace_eq_isWhiteSpace]

/-- The function `strings.TrimSpace` as modelled trims the Unicode white space
at both ends. -/
theorem specTrim_eq (s : List Char) : specTrim s = TrimSpace s := by
  unfold specTrim TrimSpace
  rw [specTrimLeft_eq, specTrimRight_eq]

/-- The line `fmt.Sprintf` builds is the mapping line of the specification. -/
theorem specLine_eq (port project : List Char) : specLine port project = mappingLine port project := by
  apply String.ext
  simp [specLine, mappingLine]

theorem specDefaultLine_eq : specDefaultLine = defaultLine := by
  decide

theorem specCollected_cons_break (n : Nat) (port : List Char) (ls : List (List Char))
    (hport : TrimSpace port = []) : specCollected (n + 1) (port :: ls) = [] := by
  cases ls <;> simp [specCollected, roundLines, specTrim_eq, promptRounds, hport]

theorem specCollected_cons_skip (n : Nat) (port project : List Char) (ls : List (List Char))
    (hport : TrimSpace port ≠ []) (hproject : TrimSpace project = []) :
    specCollected (n + 1) (port :: project :: ls) = specCollected n ls := by
  simp [specCollected, roundLines, specTrim_eq, promptRounds, hport, hproject,
    List.takeWhile_cons]

theorem specCollected_cons_keep (n : Nat) (port project : List Char) (ls : List (List Char))
    (hport : TrimSpace port ≠ []) (hproject : TrimSpace project ≠ []) :
    specCollected (n + 1) (port :: project :: ls) =
      mappingLine (TrimSpace port) (TrimSpace project) :: specCollected n ls := by
  simp [specCollected, roundLines, specTrim_eq, specLine_eq, promptRounds, hport, hproject,
    List.takeWhile_cons]

theorem specCollected_single (n : Nat) (port : List Char) :
    specCollected (n + 1) [port] = [] := by
  by_cases hport : TrimSpace port = []
  · simp [specCollected, roundLines, specTrim_eq, promptRounds, hport]
  · simp [specCollected, roundLines, specTrim_eq, promptRounds, hport, List.takeWhile_cons,
      TrimSpace_nil]

theorem specCollected_nil (n : Nat) : specCollected n [] = [] := by
  simp [specCollected, roundLines, promptRounds]

/-- The loop of `SetupCmd` collects the mapping lines the specification names. -/
theorem promptLoop_eq (n : Nat) : ∀ (input : List Char) (acc : List String),
    promptLoop n input acc = acc ++ specCollected n (inputLines input) := by
  induction n with
  | zero =>
    intro input acc
    simp [promptLoop, specCollected, roundLines]
  | succ n ih =>
    intro input acc
    cases input with
    | nil =>
      simp [promptLoop, ReadString, TrimSpace_nil, inputLines, specCollected_nil]
    | cons c cs =>
      obtain ⟨h1, hl1, ht1⟩ := ReadString_trim (c :: cs) (by simp)
      rw [promptLoop]
      simp only [ht1]
      by_cases hport : TrimSpace h1 = []
      · rw [hl1, specCollected_cons_break n h1 _ hport]
        simp [hport]
      · simp only [hport, if_false]
        cases hrest : (ReadString (c :: cs)).2 with
        | nil =>
          rw [hl1, hrest]
          simp [ReadString, TrimSpace_nil, ih, inputLines, specCollected_nil,
            specCollected_single]
        | cons d ds =>
          obtain ⟨h2, hl2, ht2⟩ := ReadString_trim (d :: ds) (by simp)
          rw [hl1, hrest, hl2]
          simp only [ht2]
          by_cases hproject : TrimSpace h2 = []
          · rw [specCollected_cons_skip n h1 h2 _ hport hproject]
            simp [hproject, ih]
          · rw [specCollected_cons_keep n h1 h2 _ hport hproject]
            simp [hproject, ih]

theorem specCollected_length_le (n : Nat) (ls : List (List Char)) :
    (specCollected n ls).length ≤ n := by
  unfold specCollected roundLines
  rw [List.length_map]
  refine le_trans (List.length_filter_le _ _) ?_
  refine le_trans (List.Sublist.length_le (List.takeWhile_sublist _)) ?_
  rw [List.length_take]
  exact Nat.min_le_left _ _

set_option maxRecDepth 200000

/-- C10: on the input `5000`, `facebook` the generated script holds the mapping
line with four leading blanks; it is not the script whose mapping line starts
at the double quote. -/
theorem SetupCmd_line_indented :
    configLines "5000\nfacebook\n".data = ["    \"5000\": \"facebook\","] ∧
    SetupCmd "5000\nfacebook\n".data =
      scriptPart1 ++ "    \"5000\": \"facebook\",\n" ++ scriptPart2 ∧
    unindentedScript "5000\nfacebook\n".data =
      scriptPart1 ++ "\"5000\": \"facebook\",\n" ++ scriptPart2 ∧
    SetupCmd "5000\nfacebook\n".data ≠ unindentedScript "5000\nfacebook\n".data := by
  decide

/-- C10: for every text on standard input the script `SetupCmd` generates is
`scriptPart1`, then the mapping lines joined by newlines, then a newline and
`scriptPart2`. The mapping lines number between one and three: one line of four
blanks, the trimmed port in double quotes, a colon and a blank, the trimmed
project in double quotes and a comma for each of at most three prompt rounds
before the first round whose trimmed port is empty, rounds with an empty
trimmed project left out; and the single line
`    "5000": "example-project", //Default Example` when no round yields a
mapping. -/
theorem SetupCmd_script (stdin : List Char) :
    SetupCmd stdin =
      scriptPart1 ++ "\n".intercalate (specMappingLines stdin) ++ "\n" ++ scriptPart2 ∧
    SetupCmd stdin = specScript stdin ∧
    configLines stdin = specMappingLines stdin ∧
    1 ≤ (specMappingLines stdin).length ∧ (specMappingLines stdin).length ≤ 3 ∧
    (specCollected 3 (inputLines stdin) = [] →
      specMappingLines stdin = ["    \"5000\": \"example-project\", //Default Example"]) := by
  have hloop : promptLoop 3 stdin [] = specCollected 3 (inputLines stdin) := by
    rw [promptLoop_eq]
    simp
  have hlines : configLines stdin = specMappingLines stdin := by
    unfold configLines specMappingLines
    simp only [hloop, specDefaultLine_eq]
    by_cases hnil : specCollected 3 (inputLines stdin) = []
    · simp [hnil]
    · simp [hnil]
  have hlen := specCollected_length_le 3 (inputLines stdin)
  refine ⟨?_, ?_, hlines, ?_, ?_, ?_⟩
  · unfold SetupCmd
    rw [hlines]
  · unfold SetupCmd specScript
    rw [hlines]
  · unfold specMappingLines
    by_cases hnil : specCollected 3 (inputLines stdin) = []
    · simp [hnil]
    · simp only [hnil, if_false]
      exact List.length_pos.mpr hnil
  · unfold specMappingLines
    by_cases hnil : specCollected 3 (inputLines stdin) = []
    · simp [hnil]
    · simp only [hnil, if_false]
      exact hlen
  · intro hnil
    have hd : specDefaultLine = "    \"5000\": \"example-project\", //Default Example" := by
      decide
    simp [specMappingLines, hnil, hd]

theorem SetupCmd_script_witness :
    SetupCmd " 5000 \n\tfacebook\r\n7000\n \n8080\tx\nmy app\nunread\n".data =
      scriptPart1 ++ "    \"5000\": \"facebook\",\n    \"8080\tx\": \"my app\",\n" ++
        scriptPart2 ∧
    SetupCmd " \n9000\nignored\n".data =
      scriptPart1 ++ "    \"5000\": \"example-project\", //Default Example\n" ++ scriptPart2 :=
  ⟨(SetupCmd_script " 5000 \n\tfacebook\r\n7000\n \n8080\tx\nmy app\nunread\n".data).2.1.trans
      (by decide),
    (SetupCmd_script " \n9000\nignored\n".data).2.1.trans (by decide)⟩

end TokenVault
